import Mathlib

/-!
Shallow embedding of the KeyCL `.keyclsound` generator
(`src/keyclsound-generator.pyw`) and verification of the descriptor-codec
specification.  Pure helper functions of the Python source become Lean
functions; the filesystem and the HTTP collaborator become explicit values
passed to the functions that use them.
-/

namespace KeyCL

/-- Python `s.strip()`: remove leading and trailing whitespace. -/
def strip (s : String) : String :=
  ⟨((s.data.dropWhile Char.isWhitespace).reverse.dropWhile Char.isWhitespace).reverse⟩

/-- Python `s.endswith(suffix)` for a single literal suffix. -/
def strEndsWith (s suffix : String) : Bool :=
  suffix.data.isSuffixOf s.data

/-- The tuple check `url.endswith((".mp3", ".wav", ".ogg"))` from the source. -/
def hasAudioExt (s : String) : Bool :=
  strEndsWith s ".mp3" || strEndsWith s ".wav" || strEndsWith s ".ogg"

/-- The five textual fields of a `.keyclsound` descriptor (§3 of the spec). -/
structure SoundDescriptor where
  title : String
  author : String
  description : String
  tags : String
  url : String
deriving Repr, DecidableEq

/-- The two validation failures surfaced by `generate_file` via `messagebox.showerror`. -/
inductive ValidationError where
  /-- "Author, Tags, and URL are required!" -/
  | requiredMissing
  /-- "URL must end with .mp3, .wav, or .ogg" -/
  | badExtension
deriving Repr, DecidableEq

/-- The validation and normalization performed by `generate_file`
(lines 143-152 of the source) on the already-stripped field values:
author, tags and url must be non-empty, url must carry an audio extension,
and a blank title falls back to `"Untitled Song"` (Python `or`). -/
def validate (title author description tags url : String) :
    Except ValidationError SoundDescriptor :=
  if author = "" ∨ tags = "" ∨ url = "" then
    Except.error ValidationError.requiredMissing
  else if hasAudioExt url = false then
    Except.error ValidationError.badExtension
  else
    Except.ok
      { title := if title = "" then "Untitled Song" else title
        author := author
        description := description
        tags := tags
        url := url }

/-- The serialized form built by `generate_file` (lines 154-160 of the source):
five `key: value` lines, each terminated by a newline. -/
def encode (d : SoundDescriptor) : String :=
  "title: " ++ d.title ++ "\n" ++
  "author: " ++ d.author ++ "\n" ++
  "description: " ++ d.description ++ "\n" ++
  "tags: " ++ d.tags ++ "\n" ++
  "url: " ++ d.url ++ "\n"

/-- `generate_random_filename` from the source:
`f"{random.randint(10000000, 99999999)}.keyclsound"`, with the pseudo-random
draw `n` made explicit (the `randint` contract bounds it by
`10000000 ≤ n ≤ 99999999`). -/
def generate_random_filename (n : Nat) : String :=
  Nat.repr n ++ ".keyclsound"

/-- The local filesystem, as a map from filename to file contents. -/
def FS : Type := String → Option String

/-- Python `open(filename, "w")` followed by `write(data)`: mode `"w"`
truncates, so the name is bound to `data` whether or not it existed. -/
def fsWrite (fs : FS) (name data : String) : FS :=
  fun m => if m = name then some data else fs m

/-- `save_keyclsound` from the source: draw a filename and write `data` to it. -/
def save_keyclsound (fs : FS) (n : Nat) (data : String) : FS × String :=
  let filename := generate_random_filename n
  (fsWrite fs filename data, filename)

/-- Outcome of a `generate_file` invocation: either a validation error was
shown to the user, or a file was saved under the reported name. -/
inductive GenResult where
  | validationFailed (e : ValidationError)
  | saved (filename : String)
deriving Repr

/-- `generate_file` from the source: strip the five entry values, validate
them, and on success serialize and save; on failure show the error and
return without touching the filesystem. -/
def generate_file (title author description tags url : String) (fs : FS) (n : Nat) :
    FS × GenResult :=
  match validate (strip title) (strip author) (strip description) (strip tags) (strip url) with
  | Except.error e => (fs, GenResult.validationFailed e)
  | Except.ok d =>
    let r := save_keyclsound fs n (encode d)
    (r.1, GenResult.saved r.2)

/-- A directory entry returned by the GitHub contents API (§6 of the spec). -/
structure RepoEntry where
  name : String
  type : String
  path : String
  download_url : String
deriving Repr, DecidableEq

/-- Outcome of the HTTP GET inside `fetch_repo_contents`: the request either
raised, or produced a response with a status code and a body whose JSON
parse either succeeds (`some`) or raises (`none`). -/
inductive HttpOutcome where
  | raised
  | response (status : Nat) (body : Option (List RepoEntry))
deriving Repr

/-- `fetch_repo_contents` from the source: return the parsed body on
status 200, and the empty list when the request raised, the status was not
200, or the 200 body failed to parse (the `except` clause catches the
`response.json()` exception as well).  The function is total: it never
raises to its caller. -/
def fetch_repo_contents (path : String) (o : HttpOutcome) : List RepoEntry :=
  match o with
  | HttpOutcome.raised => []
  | HttpOutcome.response status body =>
    if status = 200 then body.getD [] else []

/-- The UI state touched by the repo browser handlers. -/
structure BrowserState where
  current_path : String
  repo_label : String
  listbox : List String
  selected_url : String
  manual_url_entry : String
deriving Repr, DecidableEq

/-- The listbox label `load_repo` builds for one entry. -/
def entryLabel (item : RepoEntry) : String :=
  if item.type = "dir" then "📁 " ++ item.name
  else if item.type = "file" && hasAudioExt item.name then "🎵 " ++ item.name
  else "📄 " ++ item.name

/-- `load_repo` from the source: refetch `path` through the network
collaborator `net`, update the navigation label and the listbox; the
selected URL and the manual URL entry are not touched. -/
def load_repo (net : String → HttpOutcome) (st : BrowserState) (path : String) :
    BrowserState :=
  let items := fetch_repo_contents path (net path)
  { st with
    current_path := path
    repo_label := if path = "" then "Browsing: /" else "Browsing: /" ++ path
    listbox := (if path = "" then [] else ["[..]"]) ++ items.map entryLabel }

/-- `select_item` from the source, on a click at listbox index `idx` (an
empty `selection` returns immediately).  The result is `none` when the
Python code would raise an `IndexError` on `items[...]`; otherwise it is the
updated state together with the optional `showinfo` message. -/
def select_item (net : String → HttpOutcome) (st : BrowserState)
    (items : List RepoEntry) (selection : List Nat) :
    Option (BrowserState × Option String) :=
  match selection with
  | [] => some (st, none)
  | idx :: _ =>
    if st.current_path ≠ "" ∧ idx = 0 then
      let parent := String.intercalate "/" ((st.current_path.splitOn "/").dropLast)
      some (load_repo net st parent, none)
    else
      match items.get? (if st.current_path = "" then idx else idx - 1) with
      | none => none
      | some item =>
        if item.type = "dir" then some (load_repo net st item.path, none)
        else if item.type = "file" then
          if hasAudioExt item.name then
            some ({ st with
                      selected_url := item.download_url
                      manual_url_entry := item.download_url }, none)
          else
            some (st, some "Only .mp3, .wav, or .ogg can be selected for KeyCL.")
        else some (st, none)

/-- A parse failure of `decode` (§7 of the spec). -/
inductive ParseError where
  /-- a line does not match the `key: value` pattern -/
  | badLine
  /-- a required key (`author`, `tags` or `url`) is missing -/
  | missingKey
deriving Repr, DecidableEq

/-- Split a character list into the segments between newline characters
(the semantics of splitting the text on `"\n"`). -/
def splitLinesAux : List Char → List Char → List (List Char)
  | [], acc => [acc.reverse]
  | c :: rest, acc =>
    if c = '\n' then acc.reverse :: splitLinesAux rest []
    else splitLinesAux rest (c :: acc)

/-- All lines of a text, in order. -/
def splitLines (cs : List Char) : List (List Char) :=
  splitLinesAux cs []

/-- Modelled from the spec: one line of a descriptor must match the
`key: value` pattern of §6 — the key runs up to the first colon, which must
be followed by a single space; the remainder is the value. -/
def parseLine (cs : List Char) : Option (String × String) :=
  match cs.dropWhile (fun c => c ≠ ':') with
  | ':' :: ' ' :: v => some (⟨cs.takeWhile (fun c => c ≠ ':')⟩, ⟨v⟩)
  | _ => none

/-- Modelled from the spec: parse every line, failing if any line is malformed. -/
def parsePairs : List (List Char) → Option (List (String × String))
  | [] => some []
  | l :: ls =>
    match parseLine l, parsePairs ls with
    | some kv, some rest => some (kv :: rest)
    | _, _ => none

/-- Fields of a descriptor as collected so far during `decode`. -/
structure PartialDesc where
  title : Option String := none
  author : Option String := none
  description : Option String := none
  tags : Option String := none
  url : Option String := none
deriving Repr, DecidableEq

/-- Modelled from the spec: record one `key: value` pair; unknown keys are
ignored (§4.1, "unknown keys ignored"). -/
def applyPair (p : PartialDesc) (kv : String × String) : PartialDesc :=
  match kv.1 with
  | "title" => { p with title := some kv.2 }
  | "author" => { p with author := some kv.2 }
  | "description" => { p with description := some kv.2 }
  | "tags" => { p with tags := some kv.2 }
  | "url" => { p with url := some kv.2 }
  | _ => p

/-- Modelled from the spec: a serialized descriptor need not end in a blank
line (§6), so one trailing blank line is dropped before parsing. -/
def stripTrailingBlank (ls : List (List Char)) : List (List Char) :=
  if ls.getLast? = some [] then ls.dropLast else ls

/-- Modelled from the spec: assemble the descriptor from the parsed pairs —
required keys `author`/`tags`/`url` must be present (else `ParseError`),
`title` defaults to `"Untitled Song"` when absent or blank, `description`
defaults to blank. -/
def finishDecode (pairs : List (String × String)) : Except ParseError SoundDescriptor :=
  let p := pairs.foldl applyPair {}
  match p.author, p.tags, p.url with
  | some a, some tg, some u =>
    Except.ok
      { title :=
          match p.title with
          | some t => if t = "" then "Untitled Song" else t
          | none => "Untitled Song"
        author := a
        description := p.description.getD ""
        tags := tg
        url := u }
  | _, _, _ => Except.error ParseError.missingKey

/-- Modelled from the spec: `decode(text)` — the repository implements no
decoder (the descriptor files are only written, never read back, by the
tool), so this is the §4.1 contract: split into lines (a trailing blank
line is tolerated, §6), each line must match `key: value` (else
`ParseError`), required keys `author`/`tags`/`url` must be present (else
`ParseError`), `title` defaults to `"Untitled Song"` when absent or blank,
`description` defaults to blank, unknown keys are ignored. -/
def decode (text : String) : Except ParseError SoundDescriptor :=
  match parsePairs (stripTrailingBlank (splitLines text.data)) with
  | none => Except.error ParseError.badLine
  | some pairs => finishDecode pairs

/-- A well-formed descriptor in the sense of the §3 invariants: non-blank
author, tags and url, and url carries a recognized audio extension. -/
def validDescriptor (d : SoundDescriptor) : Bool :=
  !(d.author = "") && !(d.tags = "") && !(d.url = "") && hasAudioExt d.url

/-- No field value of `d` contains a newline character. -/
def noNewline (d : SoundDescriptor) : Prop :=
  '\n' ∉ d.title.data ∧ '\n' ∉ d.author.data ∧ '\n' ∉ d.description.data ∧
    '\n' ∉ d.tags.data ∧ '\n' ∉ d.url.data

instance (d : SoundDescriptor) : Decidable (noNewline d) := by
  unfold noNewline; infer_instance

/-- The descriptor of the end-to-end example in §8 of the spec. -/
def quorkDescriptor : SoundDescriptor :=
  { title := "Quork"
    author := "MyInstants"
    description := "A funny quack sound"
    tags := "duck,funny,quack"
    url := "https://example.com/cannard.mp3" }

/-- The regular expression `^\d{8}\.keyclsound$` as a decidable predicate:
exactly eight decimal digits followed by the literal `.keyclsound`. -/
def matchesKeyclsoundPattern (s : String) : Bool :=
  decide (s.data.length = 19) && (s.data.take 8).all Char.isDigit &&
    decide (s.data.drop 8 = ".keyclsound".data)

end KeyCL

deriving instance DecidableEq for Except

namespace KeyCL

/-- C2: validation of an (already trimmed) field tuple fails with a
`ValidationError` exactly when author, tags or url is blank or the url
suffix is not a recognized audio extension, and succeeds on every other
input. -/
theorem validate_error_iff (t a de tg u : String) :
    ((∃ e, validate t a de tg u = Except.error e) ↔
      (a = "" ∨ tg = "" ∨ u = "" ∨ hasAudioExt u = false)) ∧
    ((a ≠ "" ∧ tg ≠ "" ∧ u ≠ "" ∧ hasAudioExt u = true) →
      ∃ d, validate t a de tg u = Except.ok d) := by
  unfold validate
  by_cases ha : a = "" <;> by_cases htg : tg = "" <;> by_cases hu : u = "" <;>
    by_cases hx : hasAudioExt u = true <;>
    simp [ha, htg, hu, hx]

/-- Witness for C2: a tuple with every requirement satisfied validates. -/
theorem validate_error_iff_witness :
    ∃ d, validate "T" "A" "a sound" "tag" "x.mp3" = Except.ok d :=
  (validate_error_iff "T" "A" "a sound" "tag" "x.mp3").2
    ⟨by decide, by decide, by decide, by decide⟩

/-- C5: on a tuple that validates, a blank title is normalized to
"Untitled Song" and a non-blank title is kept unchanged. -/
theorem validate_title_default (t a de tg u : String) (r : SoundDescriptor)
    (h : validate t a de tg u = Except.ok r) :
    (t = "" → r.title = "Untitled Song") ∧ (t ≠ "" → r.title = t) := by
  unfold validate at h
  split at h
  · exact absurd h (by simp)
  · split at h
    · exact absurd h (by simp)
    · injection h with h
      subst h
      constructor <;> intro ht <;> simp [ht]

/-- Witness for C5: the blank title of an otherwise valid tuple becomes
"Untitled Song". -/
theorem validate_title_default_witness :
    validate "" "A" "d" "tag" "x.mp3" =
      Except.ok ⟨"Untitled Song", "A", "d", "tag", "x.mp3"⟩ ∧
    (⟨"Untitled Song", "A", "d", "tag", "x.mp3"⟩ : SoundDescriptor).title =
      "Untitled Song" :=
  ⟨by decide,
    (validate_title_default "" "A" "d" "tag" "x.mp3" _ (by decide)).1 rfl⟩

/-- C7: the url extension check is a case-sensitive byte-for-byte suffix
match; every url whose suffix is not exactly one of `.mp3`, `.wav`, `.ogg`
makes validation fail, whatever the other fields are. -/
theorem validate_rejects_bad_extension (t a de tg u : String)
    (h : hasAudioExt u = false) :
    ∃ e, validate t a de tg u = Except.error e := by
  unfold validate
  split
  · exact ⟨_, rfl⟩
  · simp [h]

/-- Witness for C7: an upper-case `.MP3` suffix is rejected. -/
theorem validate_rejects_bad_extension_witness :
    hasAudioExt "x.MP3" = false ∧
      ∃ e, validate "T" "A" "d" "tag" "x.MP3" = Except.error e :=
  ⟨by decide, validate_rejects_bad_extension "T" "A" "d" "tag" "x.MP3" (by decide)⟩

/-- C8: when validation fails, `generate_file` performs no side effect: the
filesystem is returned exactly as it was, no file is written, and the
validation error is reported to the caller. -/
theorem generate_file_validation_atomic (t a de tg u : String) (fs : FS) (n : Nat)
    (e : ValidationError)
    (h : validate (strip t) (strip a) (strip de) (strip tg) (strip u) =
      Except.error e) :
    generate_file t a de tg u fs n = (fs, GenResult.validationFailed e) := by
  unfold generate_file
  rw [h]

/-- Witness for C8: a blank author leaves an empty filesystem empty and
reports the required-fields error. -/
theorem generate_file_validation_atomic_witness :
    generate_file "T" "  " "d" "tag" "x.mp3" (fun _ => none) 7 =
      ((fun _ => none : FS), GenResult.validationFailed ValidationError.requiredMissing) :=
  generate_file_validation_atomic "T" "  " "d" "tag" "x.mp3" (fun _ => none) 7
    ValidationError.requiredMissing (by decide)

/-- C9: `fetch_repo_contents` is total (never raises to its caller); it
returns the empty list when the request raised, when the status is not 200,
or when the 200 body fails to parse, and it returns the parsed body exactly
on a parseable status-200 response. -/
theorem fetch_repo_contents_total (path : String) :
    (fetch_repo_contents path HttpOutcome.raised = []) ∧
    (∀ s b, s ≠ 200 → fetch_repo_contents path (HttpOutcome.response s b) = []) ∧
    (∀ es, fetch_repo_contents path (HttpOutcome.response 200 (some es)) = es) ∧
    (∀ s b es, fetch_repo_contents path (HttpOutcome.response s b) = es →
      es ≠ [] → s = 200 ∧ b = some es) := by
  refine ⟨rfl, ?_, ?_, ?_⟩
  · intro s b hs
    simp [fetch_repo_contents, hs]
  · intro es
    simp [fetch_repo_contents]
  · intro s b es h hne
    simp only [fetch_repo_contents] at h
    by_cases hs : s = 200
    · subst hs
      rw [if_pos rfl] at h
      cases b with
      | none => exact absurd h.symm (by simpa using hne)
      | some l => exact ⟨rfl, by rw [Option.getD] at h; rw [h]⟩
    · rw [if_neg hs] at h
      exact absurd h.symm hne

/-- Witness for C9: a 404 response yields the empty list. -/
theorem fetch_repo_contents_total_witness :
    fetch_repo_contents "sounds" (HttpOutcome.response 404 none) = [] :=
  (fetch_repo_contents_total "sounds").2.1 404 none (by decide)

/-- C4 fails on the code: `save_keyclsound` opens its target with mode "w",
so a pre-existing file at the drawn name is silently replaced and the
operation still reports success; it never fails on an existing name. -/
theorem save_keyclsound_overwrites_silently :
    ((fun m => if m = "12345678.keyclsound" then some "old" else none : FS)
        "12345678.keyclsound" = some "old") ∧
    (save_keyclsound (fun m => if m = "12345678.keyclsound" then some "old" else none)
        12345678 "new").2 = "12345678.keyclsound" ∧
    (save_keyclsound (fun m => if m = "12345678.keyclsound" then some "old" else none)
        12345678 "new").1 "12345678.keyclsound" = some "new" :=
  ⟨by decide, by decide, by decide⟩

/-- C4 amended: each generation writes exactly one file — the drawn name
is bound to the new data (silently overwriting any previous contents) and
every other name is left unchanged; the written name is reported back. -/
theorem save_keyclsound_spec (fs : FS) (n : Nat) (data m : String) :
    (save_keyclsound fs n data).2 = generate_random_filename n ∧
    (save_keyclsound fs n data).1 m =
      (if m = generate_random_filename n then some data else fs m) :=
  ⟨rfl, rfl⟩

/-- Navigation via `load_repo` never touches the selected URL or the manual
URL entry. -/
theorem load_repo_frame (net : String → HttpOutcome) (st : BrowserState) (p : String) :
    (load_repo net st p).selected_url = st.selected_url ∧
      (load_repo net st p).manual_url_entry = st.manual_url_entry :=
  ⟨rfl, rfl⟩

/-- C10: a click in the repo browser changes the selected URL or the manual
URL entry only when it lands on a file entry whose name carries one of the
three audio suffixes (in which case both become its download URL); in
particular a file entry without an audio suffix leaves the whole state
unchanged and only shows the informational message. -/
theorem select_item_frame (net : String → HttpOutcome) (st : BrowserState)
    (items : List RepoEntry) (sel : List Nat) :
    (∀ st' msg, select_item net st items sel = some (st', msg) →
      (st'.selected_url = st.selected_url ∧
        st'.manual_url_entry = st.manual_url_entry) ∨
      (∃ i item, items.get? i = some item ∧ item.type = "file" ∧
        hasAudioExt item.name = true ∧ st'.selected_url = item.download_url ∧
        st'.manual_url_entry = item.download_url)) ∧
    (∀ idx item, sel = [idx] → (st.current_path = "" ∨ idx ≠ 0) →
      items.get? (if st.current_path = "" then idx else idx - 1) = some item →
      item.type = "file" → hasAudioExt item.name = false →
      select_item net st items sel =
        some (st, some "Only .mp3, .wav, or .ogg can be selected for KeyCL.")) := by
  constructor
  · intro st' msg h
    cases sel with
    | nil =>
      simp only [select_item] at h
      obtain ⟨h1, _⟩ := Prod.mk.injEq .. ▸ Option.some.injEq .. ▸ h
      exact Or.inl (by rw [← h1]; exact ⟨rfl, rfl⟩)
    | cons idx rest =>
      simp only [select_item] at h
      split at h
      · obtain ⟨h1, _⟩ := Prod.mk.injEq .. ▸ Option.some.injEq .. ▸ h
        exact Or.inl (by rw [← h1]; exact load_repo_frame net st _)
      · split at h
        · exact absurd h (by simp)
        · rename_i item hget
          split at h
          · obtain ⟨h1, _⟩ := Prod.mk.injEq .. ▸ Option.some.injEq .. ▸ h
            exact Or.inl (by rw [← h1]; exact load_repo_frame net st _)
          · split at h
            · split at h
              · obtain ⟨h1, _⟩ := Prod.mk.injEq .. ▸ Option.some.injEq .. ▸ h
                refine Or.inr ⟨_, item, hget, by assumption, by assumption, ?_, ?_⟩ <;>
                  rw [← h1]
              · obtain ⟨h1, _⟩ := Prod.mk.injEq .. ▸ Option.some.injEq .. ▸ h
                exact Or.inl (by rw [← h1]; exact ⟨rfl, rfl⟩)
            · obtain ⟨h1, _⟩ := Prod.mk.injEq .. ▸ Option.some.injEq .. ▸ h
              exact Or.inl (by rw [← h1]; exact ⟨rfl, rfl⟩)
  · intro idx item hsel hnav hget hfile hext
    subst hsel
    simp only [select_item]
    rw [if_neg (fun hc => hnav.elim (fun hp => hc.1 hp) (fun hi => hi hc.2))]
    rw [hget]
    simp [hfile, hext]

/-- Splitting on newlines peels off a newline-free first line. -/
theorem splitLinesAux_of_not_mem (l : List Char) :
    ∀ (acc rest : List Char), '\n' ∉ l →
      splitLinesAux (l ++ '\n' :: rest) acc =
        (acc.reverse ++ l) :: splitLinesAux rest [] := by
  induction l with
  | nil => intro acc rest _; simp [splitLinesAux]
  | cons c l ih =>
    intro acc rest h
    have hc : ¬(c = '\n') := fun e => h (by simp [e])
    have hl : '\n' ∉ l := fun m => h (by simp [m])
    simp only [List.cons_append, splitLinesAux, if_neg hc]
    show splitLinesAux (l ++ '\n' :: rest) (c :: acc) =
      (acc.reverse ++ c :: l) :: splitLinesAux rest []
    rw [ih (c :: acc) rest hl]
    simp

/-- Variant of the peeling lemma for a line made of a key part and a value
part, neither containing a newline. -/
theorem splitLinesAux_append2 (k v rest acc : List Char)
    (hk : '\n' ∉ k) (hv : '\n' ∉ v) :
    splitLinesAux (k ++ (v ++ ('\n' :: rest))) acc =
      (acc.reverse ++ (k ++ v)) :: splitLinesAux rest [] := by
  rw [show k ++ (v ++ ('\n' :: rest)) = (k ++ v) ++ '\n' :: rest by simp]
  exact splitLinesAux_of_not_mem (k ++ v) acc rest
    (by simp only [List.mem_append]; rintro (h | h); exact hk h; exact hv h)

/-- The serialized form of any descriptor with newline-free fields splits
into exactly the five `key: value` lines in the fixed order, followed by
the empty segment produced by the terminating newline. -/
theorem encode_splitLines (d : SoundDescriptor) (hn : noNewline d) :
    splitLines (encode d).data =
      [("title: " ++ d.title).data, ("author: " ++ d.author).data,
       ("description: " ++ d.description).data, ("tags: " ++ d.tags).data,
       ("url: " ++ d.url).data, []] := by
  obtain ⟨h1, h2, h3, h4, h5⟩ := hn
  show splitLinesAux (encode d).data [] = _
  unfold encode
  simp only [String.data_append, show "\n".data = ['\n'] from rfl,
    List.append_assoc, List.singleton_append]
  show splitLinesAux
      (['t', 'i', 't', 'l', 'e', ':', ' '] ++ (d.title.data ++ ('\n' ::
        (['a', 'u', 't', 'h', 'o', 'r', ':', ' '] ++ (d.author.data ++ ('\n' ::
        (['d', 'e', 's', 'c', 'r', 'i', 'p', 't', 'i', 'o', 'n', ':', ' '] ++
          (d.description.data ++ ('\n' ::
        (['t', 'a', 'g', 's', ':', ' '] ++ (d.tags.data ++ ('\n' ::
        (['u', 'r', 'l', ':', ' '] ++ (d.url.data ++
          ('\n' :: ([] : List Char))))))))))))))))
      [] = _
  rw [splitLinesAux_append2 _ _ _ _ (by decide) h1,
    splitLinesAux_append2 _ _ _ _ (by decide) h2,
    splitLinesAux_append2 _ _ _ _ (by decide) h3,
    splitLinesAux_append2 _ _ _ _ (by decide) h4,
    splitLinesAux_append2 _ _ _ _ (by decide) h5]
  simp [splitLinesAux, String.data_append]

/-- Dropping the blank segment left by a terminating newline. -/
theorem stripTrailingBlank_concat (ls : List (List Char)) :
    stripTrailingBlank (ls ++ [[]]) = ls := by
  simp [stripTrailingBlank]

/-- The scan for the first colon runs over a colon-free key. -/
theorem dropWhile_colon (k : List Char) (hk : ∀ c ∈ k, c ≠ ':') (v : List Char) :
    (k ++ ':' :: v).dropWhile (fun c => c ≠ ':') = ':' :: v := by
  induction k with
  | nil =>
    rw [List.nil_append, List.dropWhile_cons, if_neg (by decide)]
  | cons c k ih =>
    have hc : c ≠ ':' := hk c (by simp)
    rw [List.cons_append, List.dropWhile_cons, if_pos (by simpa using hc)]
    exact ih (fun x hx => hk x (by simp [hx]))

/-- The key kept by the scan is the colon-free prefix. -/
theorem takeWhile_colon (k : List Char) (hk : ∀ c ∈ k, c ≠ ':') (v : List Char) :
    (k ++ ':' :: v).takeWhile (fun c => c ≠ ':') = k := by
  induction k with
  | nil =>
    rw [List.nil_append, List.takeWhile_cons, if_neg (by decide)]
  | cons c k ih =>
    have hc : c ≠ ':' := hk c (by simp)
    rw [List.cons_append, List.takeWhile_cons, if_pos (by simpa using hc)]
    rw [ih (fun x hx => hk x (by simp [hx]))]

/-- A `key: value` line with a colon-free key parses into that key and value. -/
theorem parseLine_keyval (k : List Char) (hk : ∀ c ∈ k, c ≠ ':') (v : List Char) :
    parseLine (k ++ ':' :: ' ' :: v) = some (⟨k⟩, ⟨v⟩) := by
  unfold parseLine
  rw [dropWhile_colon k hk (' ' :: v), takeWhile_colon k hk (' ' :: v)]
  rfl

/-- String-level form of `parseLine_keyval`. -/
theorem parseLine_line (k : String) (hk : ∀ c ∈ k.data, c ≠ ':') (v : String) :
    parseLine ((k ++ ": " ++ v).data) = some (k, v) := by
  have e : (k ++ ": " ++ v).data = k.data ++ ':' :: ' ' :: v.data := by
    simp only [String.data_append, List.append_assoc]
    rfl
  rw [e, parseLine_keyval k.data hk v.data]

/-- C3 fails on the code by one byte: the block built by `generate_file`
carries a terminating newline, so it is not byte-for-byte the quoted
five-line block (which stops after `.mp3`). -/
theorem encode_quork_not_exact_block :
    encode quorkDescriptor ≠
      "title: Quork\nauthor: MyInstants\ndescription: A funny quack sound\ntags: duck,funny,quack\nurl: https://example.com/cannard.mp3" := by
  decide

/-- C3 amended: the serialized form is the five `key: value` lines in the
fixed order title, author, description, tags, url, each terminated by a
newline (so splitting on newlines yields those five lines plus the empty
trailing segment); on the §8 example the output is exactly the quoted block
followed by the terminating newline. -/
theorem encode_fixed_order (d : SoundDescriptor) (hn : noNewline d) :
    splitLines (encode d).data =
      [("title: " ++ d.title).data, ("author: " ++ d.author).data,
       ("description: " ++ d.description).data, ("tags: " ++ d.tags).data,
       ("url: " ++ d.url).data, []] ∧
    encode quorkDescriptor =
      "title: Quork\nauthor: MyInstants\ndescription: A funny quack sound\ntags: duck,funny,quack\nurl: https://example.com/cannard.mp3\n" :=
  ⟨encode_splitLines d hn, by decide⟩

/-- Witness for C3 (amended): the example descriptor has newline-free
fields and its encoding splits into the five expected lines. -/
theorem encode_fixed_order_witness :
    splitLines (encode quorkDescriptor).data =
      [("title: " ++ quorkDescriptor.title).data,
       ("author: " ++ quorkDescriptor.author).data,
       ("description: " ++ quorkDescriptor.description).data,
       ("tags: " ++ quorkDescriptor.tags).data,
       ("url: " ++ quorkDescriptor.url).data, []] ∧
    encode quorkDescriptor =
      "title: Quork\nauthor: MyInstants\ndescription: A funny quack sound\ntags: duck,funny,quack\nurl: https://example.com/cannard.mp3\n" :=
  encode_fixed_order quorkDescriptor (by decide)

/-- C1 fails as stated: a descriptor that is valid in the sense of the
claim (non-blank author, tags, url with an audio suffix, normalized title)
but whose description embeds a newline does not survive the round trip —
the decoder sees the injected text as a separate line. -/
theorem decode_encode_fails_on_newline :
    validDescriptor ⟨"T", "A", "x\ny: z", "t", "a.mp3"⟩ = true ∧
    (⟨"T", "A", "x\ny: z", "t", "a.mp3"⟩ : SoundDescriptor).title ≠ "" ∧
    decode (encode ⟨"T", "A", "x\ny: z", "t", "a.mp3"⟩) ≠
      Except.ok ⟨"T", "A", "x\ny: z", "t", "a.mp3"⟩ := by
  refine ⟨by decide, by decide, ?_⟩
  decide

/-- C1 amended: for every valid descriptor with normalized (hence
non-blank) title whose field values contain no newline character, decoding
the text produced by encoding it returns the descriptor itself. -/
theorem decode_encode_roundtrip (d : SoundDescriptor)
    (hv : validDescriptor d = true) (ht : d.title ≠ "") (hn : noNewline d) :
    decode (encode d) = Except.ok d := by
  have hsplit := encode_splitLines d hn
  have p1 : parseLine (("title: " ++ d.title).data) = some ("title", d.title) :=
    parseLine_line "title" (by decide) d.title
  have p2 : parseLine (("author: " ++ d.author).data) = some ("author", d.author) :=
    parseLine_line "author" (by decide) d.author
  have p3 : parseLine (("description: " ++ d.description).data) =
      some ("description", d.description) :=
    parseLine_line "description" (by decide) d.description
  have p4 : parseLine (("tags: " ++ d.tags).data) = some ("tags", d.tags) :=
    parseLine_line "tags" (by decide) d.tags
  have p5 : parseLine (("url: " ++ d.url).data) = some ("url", d.url) :=
    parseLine_line "url" (by decide) d.url
  unfold decode
  rw [hsplit,
    show ([("title: " ++ d.title).data, ("author: " ++ d.author).data,
      ("description: " ++ d.description).data, ("tags: " ++ d.tags).data,
      ("url: " ++ d.url).data, []] : List (List Char)) =
      [("title: " ++ d.title).data, ("author: " ++ d.author).data,
        ("description: " ++ d.description).data, ("tags: " ++ d.tags).data,
        ("url: " ++ d.url).data] ++ [[]] from rfl,
    stripTrailingBlank_concat]
  have hp : parsePairs
      [("title: " ++ d.title).data, ("author: " ++ d.author).data,
        ("description: " ++ d.description).data, ("tags: " ++ d.tags).data,
        ("url: " ++ d.url).data] =
      some [("title", d.title), ("author", d.author),
        ("description", d.description), ("tags", d.tags), ("url", d.url)] := by
    simp only [parsePairs, p1, p2, p3, p4, p5]
  rw [hp]
  show finishDecode
      [("title", d.title), ("author", d.author), ("description", d.description),
        ("tags", d.tags), ("url", d.url)] = Except.ok d
  show Except.ok
      { title := if d.title = "" then "Untitled Song" else d.title
        author := d.author
        description := d.description
        tags := d.tags
        url := d.url } = Except.ok d
  rw [if_neg ht]

/-- Witness for C1 (amended): the §8 example descriptor round-trips. -/
theorem decode_encode_roundtrip_witness :
    decode (encode quorkDescriptor) = Except.ok quorkDescriptor :=
  decode_encode_roundtrip quorkDescriptor (by decide) (by decide) (by decide)

/-- Decimal digit characters emitted by `Nat.digitChar` below base ten. -/
theorem digitChar_isDigit (m : Nat) (h : m < 10) : (Nat.digitChar m).isDigit = true := by
  interval_cases m <;> decide

/-- Every character produced by the base-ten digit loop is a decimal digit. -/
theorem toDigitsCore_all_digits (fuel : Nat) : ∀ (n : Nat) (acc : List Char),
    (∀ c ∈ acc, c.isDigit = true) →
    ∀ c ∈ Nat.toDigitsCore 10 fuel n acc, c.isDigit = true := by
  induction fuel with
  | zero => intro n acc hacc; simpa [Nat.toDigitsCore] using hacc
  | succ f ih =>
    intro n acc hacc c hc
    simp only [Nat.toDigitsCore] at hc
    have hstep : ∀ x ∈ Nat.digitChar (n % 10) :: acc, x.isDigit = true := by
      intro x hx
      rcases List.mem_cons.mp hx with h | h
      · subst h; exact digitChar_isDigit (n % 10) (Nat.mod_lt n (by norm_num))
      · exact hacc x h
    split at hc
    · exact hstep c hc
    · exact ih (n / 10) (Nat.digitChar (n % 10) :: acc) hstep c hc

/-- One step of the digit loop. -/
theorem toDigitsCore_succ (b fuel n : Nat) (acc : List Char) :
    Nat.toDigitsCore b (fuel + 1) n acc =
      if n / b = 0 then Nat.digitChar (n % b) :: acc
      else Nat.toDigitsCore b fuel (n / b) (Nat.digitChar (n % b) :: acc) := rfl

/-- With enough fuel, the base-ten digit loop emits exactly
`log 10 n + 1` characters in front of the accumulator. -/
theorem toDigitsCore_length_exact (fuel : Nat) : ∀ (n : Nat) (acc : List Char),
    n < 10 ^ (fuel + 1) →
    (Nat.toDigitsCore 10 (fuel + 1) n acc).length = Nat.log 10 n + 1 + acc.length := by
  induction fuel with
  | zero =>
    intro n acc h
    have hn : n < 10 := by simpa using h
    have h0 : n / 10 = 0 := Nat.div_eq_of_lt hn
    rw [toDigitsCore_succ, if_pos h0, Nat.log_of_lt hn]
    simp only [List.length_cons]
    omega
  | succ f ih =>
    intro n acc h
    rw [toDigitsCore_succ]
    by_cases h0 : n / 10 = 0
    · rw [if_pos h0]
      have hn : n < 10 := by omega
      rw [Nat.log_of_lt hn]
      simp only [List.length_cons]
      omega
    · rw [if_neg h0]
      have hb : 10 ≤ n := by omega
      have h' : n / 10 < 10 ^ (f + 1) :=
        Nat.nat_repr_len_aux n 10 (f + 1) (by norm_num) h
      rw [ih (n / 10) (Nat.digitChar (n % 10) :: acc) h']
      have hd := Nat.log_div_base 10 n
      have hp : 0 < Nat.log 10 n := Nat.log_pos (by norm_num) hb
      simp only [List.length_cons]
      omega

/-- An eight-digit number prints as exactly eight characters. -/
theorem repr_data_length (n : Nat) (h1 : 10000000 ≤ n) (h2 : n ≤ 99999999) :
    (Nat.repr n).data.length = 8 := by
  have hfuel : n < 10 ^ (n + 1) :=
    calc n < 2 ^ n := Nat.lt_two_pow n
    _ ≤ 10 ^ n := Nat.pow_le_pow_left (by norm_num) n
    _ ≤ 10 ^ (n + 1) := Nat.pow_le_pow_right (by norm_num) (Nat.le_succ n)
  have hlen := toDigitsCore_length_exact n n [] hfuel
  have hlog : Nat.log 10 n = 7 :=
    Nat.log_eq_of_pow_le_of_lt_pow (by norm_num; omega) (by norm_num; omega)
  show (Nat.toDigitsCore 10 (n + 1) n []).length = 8
  rw [hlen, hlog]
  rfl

/-- Every character of a printed natural number is a decimal digit. -/
theorem repr_data_digits (n : Nat) : ∀ c ∈ (Nat.repr n).data, c.isDigit = true := by
  intro c hc
  exact toDigitsCore_all_digits (n + 1) n [] (by simp) c hc

/-- C6: for every outcome of the pseudo-random draw allowed by
`randint(10000000, 99999999)`, the generated filename matches the regular
expression `^\d{8}\.keyclsound$`. -/
theorem generate_random_filename_matches (n : Nat)
    (h1 : 10000000 ≤ n) (h2 : n ≤ 99999999) :
    matchesKeyclsoundPattern (generate_random_filename n) = true := by
  have hlen := repr_data_length n h1 h2
  have hdig := repr_data_digits n
  unfold matchesKeyclsoundPattern generate_random_filename
  rw [String.data_append, List.take_left' hlen, List.drop_left' hlen]
  simp [List.length_append, hlen, List.all_eq_true]
  exact fun c hc => hdig c hc

/-- Witness for C6: the smallest draw yields a matching filename. -/
theorem generate_random_filename_matches_witness :
    matchesKeyclsoundPattern (generate_random_filename 10000000) = true :=
  generate_random_filename_matches 10000000 (by decide) (by decide)

/-- Witness for C10: clicking a plain text file at the repository root only
shows the informational message and leaves the state unchanged. -/
theorem select_item_frame_witness :
    select_item (fun _ => HttpOutcome.raised)
        ⟨"", "Browsing: /", ["📄 a.txt"], "", ""⟩
        [⟨"a.txt", "file", "a.txt", "u"⟩] [0] =
      some (⟨"", "Browsing: /", ["📄 a.txt"], "", ""⟩,
        some "Only .mp3, .wav, or .ogg can be selected for KeyCL.") :=
  (select_item_frame (fun _ => HttpOutcome.raised)
      ⟨"", "Browsing: /", ["📄 a.txt"], "", ""⟩
      [⟨"a.txt", "file", "a.txt", "u"⟩] [0]).2 0 ⟨"a.txt", "file", "a.txt", "u"⟩
    rfl (Or.inl rfl) (by decide) rfl (by decide)

end KeyCL
